import Mathlib

/-
Verification development for the codex2cc gateway core (src/codex-client.js).
Each JavaScript routine relevant to the stated properties is embedded as an
executable Lean definition; the asynchronous parts are embedded as explicit
state machines whose events are the atomic synchronous sections of the
single-threaded event loop.
-/

set_option maxHeartbeats 1000000

namespace Codex2CC

/-! ## Turn Waiter (createTurnWaiter in src/codex-client.js, lines 463-590)

The waiter tracks one active turn.  Its mutable closure state is a record;
each delivery of a notification, each firing of the deadline timer, each
setTurnId call and each dispose call is one event.  JavaScript truthiness of
the nullable string turn ids is modelled explicitly. -/

/-- Usage snapshot as built at lines 520-523: both fields defaulted to 0. -/
structure Usage where
  inputTokens : Int
  outputTokens : Int
deriving DecidableEq, Repr

/-- Value delivered by resolvePromise at lines 552-557: the text plus the
possibly absent (null) usage snapshot. -/
structure TurnResult where
  text : String
  usage : Option Usage
deriving DecidableEq, Repr

/-- Inbound notifications as far as the waiter inspects them.  A field of
type Option models a possibly absent or wrongly typed JSON field; none means
the corresponding optional-chaining access in the source yields undefined. -/
inductive Notif where
  | agentMessageDelta (threadId turnId : Option String) (delta : Option String)
  | itemCompleted (threadId turnId : Option String) (itemType itemText : Option String)
  | tokenUsageUpdated (threadId turnId : Option String)
      (lastInputTokens lastOutputTokens : Option Int)
  | errorNotif (threadId turnId : Option String) (willRetry : Bool)
      (errorMessage : Option String)
  | turnCompleted (threadId turnIdInTurn : Option String) (status : Option String)
      (errorMessage : Option String)
  | otherNotif
deriving DecidableEq, Repr

/-- JavaScript truthiness of a nullable string: null, undefined and the empty
string are falsy. -/
def jsTruthy : Option String → Bool
  | none => false
  | some s => !(s == "")

/-- Guard !turnId or params.turnId === turnId (lines 493, 503, 516, 529, 545):
accept when the bound id is falsy, otherwise require strict string equality
with the notification field (undefined never equals a string). -/
def matchesTurn (boundTurnId notifTurnId : Option String) : Bool :=
  if jsTruthy boundTurnId then notifTurnId == boundTurnId else true

/-- The learning step if (!turnId and params.turnId) turnId = params.turnId
(lines 494-496 and the analogous lines of the other branches). -/
def learnTurn (boundTurnId notifTurnId : Option String) : Option String :=
  if !(jsTruthy boundTurnId) && jsTruthy notifTurnId then notifTurnId else boundTurnId

/-- JavaScript a or-else b on strings: the left operand wins unless empty. -/
def jsOrString (a b : String) : String :=
  if a == "" then b else a

instance : DecidableEq (Except String TurnResult) := fun a b =>
  match a, b with
  | .ok x, .ok y => decidable_of_iff (x = y) (by simp)
  | .error x, .error y => decidable_of_iff (x = y) (by simp)
  | .ok _, .error _ => isFalse (by simp)
  | .error _, .ok _ => isFalse (by simp)

/-- Closure state of one turn waiter, lines 463-476, together with the
bookkeeping the proofs need: subscribed tracks membership of the handler in
the listener set, timerActive whether the deadline timer is still scheduled,
offCount how many times the unsubscribe closure off was invoked, and result
the settlement delivered to the promise (none while pending). -/
structure Waiter where
  threadId : String
  timeoutMs : Nat
  turnId : Option String
  latestAgentMessage : String
  aggregatedAgentDeltas : String
  usage : Option Usage
  settled : Bool
  subscribed : Bool
  timerActive : Bool
  offCount : Nat
  result : Option (Except String TurnResult)
deriving DecidableEq, Repr

/-- The finish helper, lines 478-486: a no-op once settled; otherwise marks
settled, clears the timer, unsubscribes, and runs the handler, which settles
the promise with r. -/
def wfinish (w : Waiter) (r : Except String TurnResult) : Waiter :=
  if w.settled then w
  else
    { w with
      settled := true
      timerActive := false
      subscribed := false
      offCount := w.offCount + 1
      result := some r }

/-- The notificationHandler, lines 488-567, branch by branch.  Every branch
first requires params.threadId === threadId, then the turn-id guard, then
learns the turn id, then performs its accumulation or terminal action. -/
def notifHandle (w : Waiter) (n : Notif) : Waiter :=
  match n with
  | .agentMessageDelta pth ptid delta =>
    if pth == some w.threadId then
      if matchesTurn w.turnId ptid then
        { w with
          turnId := learnTurn w.turnId ptid
          aggregatedAgentDeltas := w.aggregatedAgentDeltas ++ delta.getD "" }
      else w
    else w
  | .itemCompleted pth ptid itemType itemText =>
    if pth == some w.threadId then
      if matchesTurn w.turnId ptid then
        let w1 := { w with turnId := learnTurn w.turnId ptid }
        if itemType == some "agentMessage" then
          match itemText with
          | some t => { w1 with latestAgentMessage := t }
          | none => w1
        else w1
      else w
    else w
  | .tokenUsageUpdated pth ptid lin lout =>
    if pth == some w.threadId then
      if matchesTurn w.turnId ptid then
        { w with
          turnId := learnTurn w.turnId ptid
          usage := some ⟨lin.getD 0, lout.getD 0⟩ }
      else w
    else w
  | .errorNotif pth ptid willRetry emsg =>
    if pth == some w.threadId then
      if matchesTurn w.turnId ptid then
        let w1 := { w with turnId := learnTurn w.turnId ptid }
        if willRetry then w1
        else wfinish w1 (.error (emsg.getD "Turn failed."))
      else w
    else w
  | .turnCompleted pth ptid status emsg =>
    if pth == some w.threadId then
      if matchesTurn w.turnId ptid then
        let w1 := { w with turnId := learnTurn w.turnId ptid }
        if status == some "completed" then
          wfinish w1
            (.ok ⟨jsOrString w1.latestAgentMessage w1.aggregatedAgentDeltas, w1.usage⟩)
        else
          wfinish w1
            (.error ("Turn " ++ status.getD "unknown" ++ ": "
              ++ jsOrString (emsg.getD "") "turn did not complete"))
      else w
    else w
  | .otherNotif => w

/-- Events that can reach one waiter. -/
inductive WaiterEv where
  | notif (n : Notif)
  | timerFire
  | setTurnId (v : String)
  | dispose
deriving DecidableEq, Repr

/-- One event against the waiter.  A notification reaches the handler only
while it is subscribed; the timer fires only while scheduled (all settle
paths call clearTimeout); setTurnId (line 578) is unconditional; dispose
(lines 582-588) settles silently when the waiter has not settled yet. -/
def wstep (w : Waiter) (e : WaiterEv) : Waiter :=
  match e with
  | .notif n => if w.subscribed then notifHandle w n else w
  | .timerFire =>
    if w.timerActive then
      wfinish w (.error ("Turn timed out after " ++ toString w.timeoutMs ++ "ms."))
    else w
  | .setTurnId v => { w with turnId := some v }
  | .dispose =>
    if w.settled then w
    else
      { w with
        settled := true
        timerActive := false
        subscribed := false
        offCount := w.offCount + 1 }

/-- Initial closure state of createTurnWaiter, lines 464-468 plus the
subscription at line 569 and the timer at line 571. -/
def initWaiter (threadId : String) (timeoutMs : Nat) : Waiter :=
  { threadId := threadId
    timeoutMs := timeoutMs
    turnId := none
    latestAgentMessage := ""
    aggregatedAgentDeltas := ""
    usage := none
    settled := false
    subscribed := true
    timerActive := true
    offCount := 0
    result := none }

/-- Run a waiter from creation through a list of events. -/
def runWaiter (threadId : String) (timeoutMs : Nat) (evs : List WaiterEv) : Waiter :=
  evs.foldl wstep (initWaiter threadId timeoutMs)

/-! ### Settlement invariant of the waiter -/

/-- Invariant of the waiter state machine: while pending, the handler is
subscribed, the timer is scheduled, off was never called and nothing was
delivered; once settled, the handler is unsubscribed, the timer is cleared
and off was called exactly once. -/
def WInv (w : Waiter) : Prop :=
  (w.settled = true → w.subscribed = false ∧ w.timerActive = false ∧ w.offCount = 1)
  ∧ (w.settled = false →
      w.subscribed = true ∧ w.timerActive = true ∧ w.offCount = 0 ∧ w.result = none)

lemma wfinish_winv (w : Waiter) (r : Except String TurnResult)
    (hs : w.settled = false) (hoff : w.offCount = 0) : WInv (wfinish w r) := by
  simp [wfinish, WInv, hs, hoff]

lemma notifHandle_winv (w : Waiter) (n : Notif) (hs : w.settled = false)
    (hoff : w.offCount = 0) (hsub : w.subscribed = true) (ht : w.timerActive = true)
    (hres : w.result = none) : WInv (notifHandle w n) := by
  cases n <;> simp only [notifHandle]
  all_goals
    repeat' split
  all_goals
    first
      | exact wfinish_winv _ _ hs hoff
      | simp [WInv, hs, hoff, hsub, ht, hres]

lemma initWaiter_winv (th : String) (tmo : Nat) : WInv (initWaiter th tmo) := by
  simp [WInv, initWaiter]

lemma wstep_winv (w : Waiter) (e : WaiterEv) (h : WInv w) : WInv (wstep w e) := by
  obtain ⟨h1, h2⟩ := h
  cases e with
  | notif n =>
    simp only [wstep]
    split
    · rename_i hsub
      cases hst : w.settled with
      | true => exact absurd hsub (by simp [(h1 hst).1])
      | false =>
        obtain ⟨hsub2, ht, hoff, hres⟩ := h2 hst
        exact notifHandle_winv w n hst hoff hsub2 ht hres
    · exact ⟨h1, h2⟩
  | timerFire =>
    simp only [wstep]
    split
    · rename_i hta
      cases hst : w.settled with
      | true => exact absurd hta (by simp [(h1 hst).2.1])
      | false => exact wfinish_winv _ _ hst (h2 hst).2.2.1
    · exact ⟨h1, h2⟩
  | setTurnId v =>
    constructor
    · intro hst; exact h1 hst
    · intro hst; exact h2 hst
  | dispose =>
    simp only [wstep]
    split
    · exact ⟨h1, h2⟩
    · rename_i hst
      simp only [Bool.not_eq_true] at hst
      simp [WInv, (h2 hst).2.2.1]

lemma runWaiter_winv (th : String) (tmo : Nat) (evs : List WaiterEv) :
    WInv (runWaiter th tmo evs) := by
  induction evs using List.reverseRecOn with
  | nil => exact initWaiter_winv th tmo
  | append_singleton evs e ih =>
    unfold runWaiter at ih ⊢
    rw [List.foldl_append]
    exact wstep_winv _ e ih

lemma wstep_frozen (w : Waiter) (e : WaiterEv) (hin : WInv w) (hs : w.settled = true) :
    (wstep w e).result = w.result ∧ (wstep w e).settled = true
    ∧ (wstep w e).offCount = w.offCount := by
  obtain ⟨hsub, hta, _⟩ := hin.1 hs
  cases e <;> simp [wstep, hsub, hta, hs]

lemma foldl_wstep_frozen (w : Waiter) (rest : List WaiterEv) (hin : WInv w)
    (hs : w.settled = true) :
    (rest.foldl wstep w).result = w.result ∧ (rest.foldl wstep w).settled = true
    ∧ (rest.foldl wstep w).offCount = w.offCount := by
  induction rest generalizing w with
  | nil => exact ⟨rfl, hs, rfl⟩
  | cons e rest ih =>
    obtain ⟨hr, hst, hoff⟩ := wstep_frozen w e hin hs
    obtain ⟨hr2, hst2, hoff2⟩ := ih (wstep w e) (wstep_winv w e hin) hst
    exact ⟨hr2.trans hr, hst2, hoff2.trans hoff⟩

/-- C3: once the turn waiter has settled (success, error, or timeout), any
further events (notifications bearing its turn id, the deadline timer,
dispose) leave the delivered result unchanged, the waiter stays settled, and
the unsubscribe closure has run exactly once by settlement and is never run
again. -/
theorem turn_waiter_settlement_idempotent (th : String) (tmo : Nat)
    (evs rest : List WaiterEv) (h : (runWaiter th tmo evs).settled = true) :
    (runWaiter th tmo (evs ++ rest)).result = (runWaiter th tmo evs).result
    ∧ (runWaiter th tmo (evs ++ rest)).settled = true
    ∧ (runWaiter th tmo evs).offCount = 1
    ∧ (runWaiter th tmo (evs ++ rest)).offCount = 1 := by
  have hin := runWaiter_winv th tmo evs
  have hoff := (hin.1 h).2.2
  have hfold : runWaiter th tmo (evs ++ rest) = rest.foldl wstep (runWaiter th tmo evs) := by
    unfold runWaiter
    rw [List.foldl_append]
  obtain ⟨hr, hst, hoc⟩ := foldl_wstep_frozen (runWaiter th tmo evs) rest hin h
  refine ⟨?_, ?_, hoff, ?_⟩
  · rw [hfold, hr]
  · rw [hfold, hst]
  · rw [hfold, hoc, hoff]

/-- Witness for C3 at a concrete trace: a completed turn followed by a late
error notification, a duplicate completion and the deadline timer. -/
theorem turn_waiter_settlement_idempotent_witness :
    (Codex2CC.runWaiter "th" 5
      [.notif (.turnCompleted (some "th") (some "t1") (some "completed") none)]).settled = true
    ∧ ((Codex2CC.runWaiter "th" 5
        ([.notif (.turnCompleted (some "th") (some "t1") (some "completed") none)] ++
          [.notif (.errorNotif (some "th") (some "t1") false (some "boom")),
            .notif (.turnCompleted (some "th") (some "t1") (some "failed") none),
            .timerFire])).result
      = (Codex2CC.runWaiter "th" 5
          [.notif (.turnCompleted (some "th") (some "t1") (some "completed") none)]).result
      ∧ (Codex2CC.runWaiter "th" 5
          ([.notif (.turnCompleted (some "th") (some "t1") (some "completed") none)] ++
            [.notif (.errorNotif (some "th") (some "t1") false (some "boom")),
              .notif (.turnCompleted (some "th") (some "t1") (some "failed") none),
              .timerFire])).settled = true
      ∧ (Codex2CC.runWaiter "th" 5
          [.notif (.turnCompleted (some "th") (some "t1") (some "completed") none)]).offCount = 1
      ∧ (Codex2CC.runWaiter "th" 5
          ([.notif (.turnCompleted (some "th") (some "t1") (some "completed") none)] ++
            [.notif (.errorNotif (some "th") (some "t1") false (some "boom")),
              .notif (.turnCompleted (some "th") (some "t1") (some "failed") none),
              .timerFire])).offCount = 1) :=
  ⟨by decide, turn_waiter_settlement_idempotent "th" 5 _ _ (by decide)⟩

/-! ### Accumulation of a scoped turn trace

The three accumulating branches of the handler, expressed as per-event fold
steps over the notification trace: line 497 appends the delta text, lines
508-510 replace the latest complete agent message, lines 520-523 overwrite
the usage snapshot with zero for each missing field. -/

/-- Fold step for the aggregated incremental text, line 497. -/
def accDelta (a : String) : Notif → String
  | .agentMessageDelta _ _ d => a ++ d.getD ""
  | _ => a

/-- Fold step for the latest complete agent message, lines 508-510. -/
def accLatest (a : String) : Notif → String
  | .itemCompleted _ _ ty tx =>
    if ty == some "agentMessage" then (match tx with | some t => t | none => a) else a
  | _ => a

/-- Fold step for the usage snapshot, lines 520-523: the last event wins and
each missing field defaults to zero. -/
def accUsage (a : Option Usage) : Notif → Option Usage
  | .tokenUsageUpdated _ _ li lo => some ⟨li.getD 0, lo.getD 0⟩
  | _ => a

/-- Fold step recording whether an item-completed agent message with string
text has arrived, and the text of the latest one. -/
def accLatestOpt (a : Option String) : Notif → Option String
  | .itemCompleted _ _ ty tx =>
    if ty == some "agentMessage" then (match tx with | some t => some t | none => a) else a
  | _ => a

/-- Latest complete agent-message text carried by a trace, or none when no
item-completed agent message with string text ever arrived. -/
def latestMsgOf (ns : List Notif) : Option String :=
  ns.foldl accLatestOpt none

/-- Notifications that accumulate without settling: the three accumulating
event kinds and advisory will-retry errors, each bearing the thread id and
the bound turn id; foreign methods are ignored by every branch. -/
def isAccumEv (th tid : String) : Notif → Bool
  | .agentMessageDelta pth ptid _ => pth == some th && ptid == some tid
  | .itemCompleted pth ptid _ _ => pth == some th && ptid == some tid
  | .tokenUsageUpdated pth ptid _ _ => pth == some th && ptid == some tid
  | .errorNotif pth ptid wr _ => pth == some th && ptid == some tid && wr
  | .turnCompleted _ _ _ _ => false
  | .otherNotif => true

lemma wstep_accum (tid : String) (htid : tid ≠ "") (w : Waiter) (n : Notif)
    (hsub : w.subscribed = true) (_hset : w.settled = false) (hturn : w.turnId = some tid)
    (hn : isAccumEv w.threadId tid n = true) :
    wstep w (.notif n) =
      { w with
        aggregatedAgentDeltas := accDelta w.aggregatedAgentDeltas n
        latestAgentMessage := accLatest w.latestAgentMessage n
        usage := accUsage w.usage n } := by
  have hjt : jsTruthy (some tid) = true := by simp [jsTruthy, htid]
  cases n with
  | agentMessageDelta pth ptid d =>
    simp only [isAccumEv, Bool.and_eq_true, beq_iff_eq] at hn
    obtain ⟨hpth, hptid⟩ := hn
    subst hpth hptid
    simp [wstep, hsub, notifHandle, matchesTurn, hturn, hjt, learnTurn, accDelta,
      accLatest, accUsage]
  | itemCompleted pth ptid ty tx =>
    simp only [isAccumEv, Bool.and_eq_true, beq_iff_eq] at hn
    obtain ⟨hpth, hptid⟩ := hn
    subst hpth hptid
    by_cases hty : ty == some "agentMessage"
    · cases tx with
      | some t =>
        simp [wstep, hsub, notifHandle, matchesTurn, hturn, hjt, learnTurn, accDelta,
          accLatest, accUsage, hty]
      | none =>
        simp [wstep, hsub, notifHandle, matchesTurn, hturn, hjt, learnTurn, accDelta,
          accLatest, accUsage, hty]
    · simp [wstep, hsub, notifHandle, matchesTurn, hturn, hjt, learnTurn, accDelta,
        accLatest, accUsage, hty]
  | tokenUsageUpdated pth ptid li lo =>
    simp only [isAccumEv, Bool.and_eq_true, beq_iff_eq] at hn
    obtain ⟨hpth, hptid⟩ := hn
    subst hpth hptid
    simp [wstep, hsub, notifHandle, matchesTurn, hturn, hjt, learnTurn, accDelta,
      accLatest, accUsage]
  | errorNotif pth ptid wr em =>
    simp only [isAccumEv, Bool.and_eq_true, beq_iff_eq] at hn
    obtain ⟨⟨hpth, hptid⟩, hwr⟩ := hn
    subst hpth hptid hwr
    simp [wstep, hsub, notifHandle, matchesTurn, hturn, hjt, learnTurn, accDelta,
      accLatest, accUsage]
  | turnCompleted pth ptid st em => simp [isAccumEv] at hn
  | otherNotif =>
    have hid : wstep w (.notif Notif.otherNotif) = w := by
      simp [wstep, hsub, notifHandle]
    rw [hid]
    rfl

lemma waiter_accum (tid : String) (htid : tid ≠ "") (ns : List Notif) (w : Waiter)
    (hsub : w.subscribed = true) (hset : w.settled = false) (hturn : w.turnId = some tid)
    (hsc : ∀ n ∈ ns, isAccumEv w.threadId tid n = true) :
    (ns.map WaiterEv.notif).foldl wstep w =
      { w with
        aggregatedAgentDeltas := ns.foldl accDelta w.aggregatedAgentDeltas
        latestAgentMessage := ns.foldl accLatest w.latestAgentMessage
        usage := ns.foldl accUsage w.usage } := by
  induction ns generalizing w with
  | nil => simp
  | cons n ns ih =>
    have hstep := wstep_accum tid htid w n hsub hset hturn (hsc n (by simp))
    simp only [List.map_cons, List.foldl_cons, hstep]
    exact ih _ hsub hset hturn (fun m hm => hsc m (by simp [hm]))

lemma wstep_turnCompleted_completed (tid : String) (htid : tid ≠ "") (w : Waiter)
    (hsub : w.subscribed = true) (hset : w.settled = false) (hturn : w.turnId = some tid) :
    (wstep w
        (.notif (.turnCompleted (some w.threadId) (some tid) (some "completed") none))).result
      = some (.ok ⟨jsOrString w.latestAgentMessage w.aggregatedAgentDeltas, w.usage⟩) := by
  have hjt : jsTruthy (some tid) = true := by simp [jsTruthy, htid]
  simp [wstep, hsub, notifHandle, matchesTurn, hturn, hjt, learnTurn, wfinish, hset]

/-- Full result of a turn that binds its id, receives a scoped accumulating
trace, and then a turn-completed event with status completed. -/
lemma run_scoped_completed (th tid : String) (tmo : Nat) (htid : tid ≠ "")
    (ns : List Notif) (hsc : ∀ n ∈ ns, isAccumEv th tid n = true) :
    (runWaiter th tmo
        (WaiterEv.setTurnId tid ::
          (ns.map WaiterEv.notif ++
            [WaiterEv.notif (.turnCompleted (some th) (some tid) (some "completed") none)]))).result
      = some (.ok ⟨jsOrString (ns.foldl accLatest "") (ns.foldl accDelta ""),
          ns.foldl accUsage none⟩) := by
  have h0 : wstep (initWaiter th tmo) (.setTurnId tid)
      = { initWaiter th tmo with turnId := some tid } := by
    simp [wstep]
  unfold runWaiter
  rw [List.foldl_cons, h0, List.foldl_append]
  rw [waiter_accum tid htid ns _ rfl rfl rfl (by simpa [initWaiter] using hsc)]
  simp only [List.foldl_cons, List.foldl_nil]
  exact wstep_turnCompleted_completed tid htid _ rfl rfl rfl

lemma accLatest_bridge (ns : List Notif) : ∀ (s : String),
    ns.foldl accLatestOpt (some s) = some (ns.foldl accLatest s) := by
  induction ns with
  | nil => intro s; rfl
  | cons n ns ih =>
    intro s
    cases n with
    | itemCompleted p q ty tx =>
      simp only [List.foldl_cons, accLatestOpt, accLatest]
      by_cases hty : (ty == some "agentMessage") = true
      · rw [if_pos hty, if_pos hty]
        cases tx with
        | some t => exact ih t
        | none => exact ih s
      · rw [if_neg hty, if_neg hty]
        exact ih s
    | agentMessageDelta p q d => exact ih s
    | tokenUsageUpdated p q li lo => exact ih s
    | errorNotif p q wr em => exact ih s
    | turnCompleted p q st em => exact ih s
    | otherNotif => exact ih s

lemma accLatest_some (ns : List Notif) : ∀ (s t : String),
    latestMsgOf ns = some t → ns.foldl accLatest s = t := by
  unfold latestMsgOf
  induction ns with
  | nil =>
    intro s t h
    exact absurd h (by simp)
  | cons n ns ih =>
    intro s t h
    cases n with
    | itemCompleted p q ty tx =>
      simp only [List.foldl_cons, accLatestOpt, accLatest] at h ⊢
      by_cases hty : (ty == some "agentMessage") = true
      · rw [if_pos hty] at h ⊢
        cases tx with
        | some u =>
          rw [accLatest_bridge ns u] at h
          simpa using h
        | none => exact ih s t h
      · rw [if_neg hty] at h ⊢
        exact ih s t h
    | agentMessageDelta p q d => exact ih s t h
    | tokenUsageUpdated p q li lo => exact ih s t h
    | errorNotif p q wr em => exact ih s t h
    | turnCompleted p q st em => exact ih s t h
    | otherNotif => exact ih s t h

lemma accLatest_none (ns : List Notif) : ∀ (s : String),
    latestMsgOf ns = none → ns.foldl accLatest s = s := by
  unfold latestMsgOf
  induction ns with
  | nil => intro s _; rfl
  | cons n ns ih =>
    intro s h
    cases n with
    | itemCompleted p q ty tx =>
      simp only [List.foldl_cons, accLatestOpt, accLatest] at h ⊢
      by_cases hty : (ty == some "agentMessage") = true
      · rw [if_pos hty] at h ⊢
        cases tx with
        | some u =>
          rw [accLatest_bridge ns u] at h
          exact absurd h (by simp)
        | none => exact ih s h
      · rw [if_neg hty] at h ⊢
        exact ih s h
    | agentMessageDelta p q d => exact ih s h
    | tokenUsageUpdated p q li lo => exact ih s h
    | errorNotif p q wr em => exact ih s h
    | turnCompleted p q st em => exact ih s h
    | otherNotif => exact ih s h

/-! ### Claim theorems about turn resolution -/

/-- C5 (amended): a turn that settles successfully via a turn-completed event
with status completed resolves with the text latestAgentMessage or-else
aggregatedAgentDeltas.  In particular the resolved text equals the latest
complete agent-message text whenever that text is non-empty, and equals the
concatenation, in arrival order, of the incremental-text deltas when no
complete agent message ever arrived.  The claim as frozen is stronger (the
latest complete message is said to win whenever one arrived at all); the
falsy-string fallback at line 554 makes an empty latest message lose to the
deltas, see the counterexample. -/
theorem turn_text_resolution (th tid : String) (tmo : Nat) (htid : tid ≠ "")
    (ns : List Notif) (hsc : ∀ n ∈ ns, isAccumEv th tid n = true) :
    ((runWaiter th tmo
        (WaiterEv.setTurnId tid ::
          (ns.map WaiterEv.notif ++
            [WaiterEv.notif
              (.turnCompleted (some th) (some tid) (some "completed") none)]))).result).map
        (Except.map TurnResult.text)
      = some (.ok (jsOrString (ns.foldl accLatest "") (ns.foldl accDelta "")))
    ∧ (∀ m : String, latestMsgOf ns = some m → m ≠ "" →
        ((runWaiter th tmo
            (WaiterEv.setTurnId tid ::
              (ns.map WaiterEv.notif ++
                [WaiterEv.notif
                  (.turnCompleted (some th) (some tid) (some "completed") none)]))).result).map
            (Except.map TurnResult.text)
          = some (.ok m))
    ∧ (latestMsgOf ns = none →
        ((runWaiter th tmo
            (WaiterEv.setTurnId tid ::
              (ns.map WaiterEv.notif ++
                [WaiterEv.notif
                  (.turnCompleted (some th) (some tid) (some "completed") none)]))).result).map
            (Except.map TurnResult.text)
          = some (.ok (ns.foldl accDelta ""))) := by
  have h := run_scoped_completed th tid tmo htid ns hsc
  refine ⟨?_, ?_, ?_⟩
  · rw [h]
    rfl
  · intro m hm hne
    rw [h, accLatest_some ns "" m hm]
    simp only [jsOrString]
    rw [if_neg (by simp [hne])]
    rfl
  · intro hm
    rw [h, accLatest_none ns "" hm]
    simp [jsOrString, Except.map]

/-- C5 counterexample for the claim as frozen: a delta Hi arrives, then an
item-completed agent message whose text is the empty string (so a complete
agent message did arrive for the turn, its latest text being empty), then a
completed event.  The resolved text is Hi, not the latest complete
agent-message text. -/
theorem turn_text_resolution_counterexample :
    latestMsgOf
        [.agentMessageDelta (some "th") (some "t1") (some "Hi"),
          .itemCompleted (some "th") (some "t1") (some "agentMessage") (some "")]
      = some ""
    ∧ (runWaiter "th" 5
        (WaiterEv.setTurnId "t1" ::
          ([(.agentMessageDelta (some "th") (some "t1") (some "Hi") : Notif),
              .itemCompleted (some "th") (some "t1") (some "agentMessage") (some "")].map
              WaiterEv.notif ++
            [WaiterEv.notif
              (.turnCompleted (some "th") (some "t1") (some "completed") none)]))).result
      = some (.ok ⟨"Hi", none⟩)
    ∧ ("Hi" : String) ≠ "" := by
  exact ⟨by decide, by decide, by decide⟩

/-- Witness for C5 at a concrete trace: a delta Hi, then a complete agent
message Hi there, then completed; the complete message wins. -/
theorem turn_text_resolution_witness :
    ((runWaiter "th" 5
        (WaiterEv.setTurnId "t1" ::
          ([(.agentMessageDelta (some "th") (some "t1") (some "Hi") : Notif),
              .itemCompleted (some "th") (some "t1") (some "agentMessage")
                (some "Hi there")].map WaiterEv.notif ++
            [WaiterEv.notif
              (.turnCompleted (some "th") (some "t1") (some "completed") none)]))).result).map
        (Except.map TurnResult.text)
      = some (.ok "Hi there") :=
  (turn_text_resolution "th" "t1" 5 (by decide)
      ([.agentMessageDelta (some "th") (some "t1") (some "Hi"),
          .itemCompleted (some "th") (some "t1") (some "agentMessage") (some "Hi there")] :
        List Notif)
      (by decide)).2.1 "Hi there" (by decide) (by decide)

/-- C6 (amended): a successfully resolved turn carries as usage the last
token-usage-updated snapshot observed for the turn, with 0 substituted for
each missing field, when at least one such event arrived, and null when none
arrived.  The second conjunct shows last-value-wins concretely: appending one
more snapshot makes exactly that snapshot the delivered usage. -/
theorem turn_usage_resolution (th tid : String) (tmo : Nat) (htid : tid ≠ "")
    (ns : List Notif) (hsc : ∀ n ∈ ns, isAccumEv th tid n = true) :
    ((runWaiter th tmo
        (WaiterEv.setTurnId tid ::
          (ns.map WaiterEv.notif ++
            [WaiterEv.notif
              (.turnCompleted (some th) (some tid) (some "completed") none)]))).result).map
        (Except.map TurnResult.usage)
      = some (.ok (ns.foldl accUsage none))
    ∧ (∀ li lo : Option Int,
        ((runWaiter th tmo
            (WaiterEv.setTurnId tid ::
              ((ns ++ [Notif.tokenUsageUpdated (some th) (some tid) li lo]).map
                  WaiterEv.notif ++
                [WaiterEv.notif
                  (.turnCompleted (some th) (some tid) (some "completed") none)]))).result).map
            (Except.map TurnResult.usage)
          = some (.ok (some ⟨li.getD 0, lo.getD 0⟩))) := by
  constructor
  · rw [run_scoped_completed th tid tmo htid ns hsc]
    rfl
  · intro li lo
    have hsc2 : ∀ n ∈ ns ++ [Notif.tokenUsageUpdated (some th) (some tid) li lo],
        isAccumEv th tid n = true := by
      intro n hn
      rcases List.mem_append.1 hn with hmem | hmem
      · exact hsc n hmem
      · simp only [List.mem_singleton] at hmem
        subst hmem
        simp [isAccumEv]
    rw [run_scoped_completed th tid tmo htid _ hsc2]
    simp [List.foldl_append, accUsage, Except.map]

/-- C6 counterexample for the claim as frozen: a turn that resolves
successfully with no token-usage-updated event delivers usage null, not a
record of input and output token counts. -/
theorem turn_usage_resolution_counterexample :
    (runWaiter "th" 5
        [WaiterEv.setTurnId "t1",
          WaiterEv.notif (.agentMessageDelta (some "th") (some "t1") (some "Hi")),
          WaiterEv.notif
            (.turnCompleted (some "th") (some "t1") (some "completed") none)]).result
      = some (.ok ⟨"Hi", none⟩)
    ∧ (runWaiter "th" 5
        [WaiterEv.setTurnId "t1",
          WaiterEv.notif (.agentMessageDelta (some "th") (some "t1") (some "Hi")),
          WaiterEv.notif
            (.turnCompleted (some "th") (some "t1") (some "completed") none)]).result
      ≠ some (.ok ⟨"Hi", some ⟨0, 0⟩⟩) := by
  exact ⟨by decide, by decide⟩

/-- Witness for C6 at a concrete trace with two usage snapshots; the second
one wins and its missing output field defaults to zero. -/
theorem turn_usage_resolution_witness :
    ((runWaiter "th" 5
        (WaiterEv.setTurnId "t1" ::
          (([(.tokenUsageUpdated (some "th") (some "t1") (some 9) (some 9) : Notif)] ++
              [Notif.tokenUsageUpdated (some "th") (some "t1") (some 3) none]).map
              WaiterEv.notif ++
            [WaiterEv.notif
              (.turnCompleted (some "th") (some "t1") (some "completed") none)]))).result).map
        (Except.map TurnResult.usage)
      = some (.ok (some ⟨3, 0⟩)) :=
  (turn_usage_resolution "th" "t1" 5 (by decide)
      ([.tokenUsageUpdated (some "th") (some "t1") (some 9) (some 9)] : List Notif)
      (by decide)).2 (some 3) none

/-- C9: an error notification for the turn with the retry flag clear settles
the waiter immediately as an error carrying the notified message; an error
notification with the retry flag set does not settle the waiter and leaves
its accumulated state (latest complete message, aggregated deltas, usage,
settled flag, delivered result) unchanged.  The turn-id binding may still be
learned from an advisory error, which is id bookkeeping, not accumulated
state. -/
theorem error_notification_settlement (w : Waiter) (tid : Option String) (m : String)
    (hsub : w.subscribed = true) (hset : w.settled = false)
    (hmatch : matchesTurn w.turnId tid = true) :
    (wstep w (.notif (.errorNotif (some w.threadId) tid false (some m)))).result
      = some (.error m)
    ∧ (wstep w (.notif (.errorNotif (some w.threadId) tid false (some m)))).settled = true
    ∧ (wstep w (.notif (.errorNotif (some w.threadId) tid true (some m)))).settled = false
    ∧ (wstep w (.notif (.errorNotif (some w.threadId) tid true (some m)))).result = w.result
    ∧ (wstep w (.notif (.errorNotif (some w.threadId) tid true (some m)))).latestAgentMessage
      = w.latestAgentMessage
    ∧ (wstep w (.notif (.errorNotif (some w.threadId) tid true (some m)))).aggregatedAgentDeltas
      = w.aggregatedAgentDeltas
    ∧ (wstep w (.notif (.errorNotif (some w.threadId) tid true (some m)))).usage = w.usage := by
  simp [wstep, hsub, notifHandle, hmatch, wfinish, hset]

/-- Witness for C9 on the freshly created waiter and a concrete error
message. -/
theorem error_notification_settlement_witness :
    (wstep (initWaiter "th" 5)
        (.notif (.errorNotif (some "th") (some "t1") false (some "boom")))).result
      = some (.error "boom")
    ∧ (wstep (initWaiter "th" 5)
        (.notif (.errorNotif (some "th") (some "t1") false (some "boom")))).settled = true
    ∧ (wstep (initWaiter "th" 5)
        (.notif (.errorNotif (some "th") (some "t1") true (some "boom")))).settled = false
    ∧ (wstep (initWaiter "th" 5)
        (.notif (.errorNotif (some "th") (some "t1") true (some "boom")))).result
      = (initWaiter "th" 5).result
    ∧ (wstep (initWaiter "th" 5)
        (.notif (.errorNotif (some "th") (some "t1") true (some "boom")))).latestAgentMessage
      = (initWaiter "th" 5).latestAgentMessage
    ∧ (wstep (initWaiter "th" 5)
        (.notif (.errorNotif (some "th") (some "t1") true (some "boom")))).aggregatedAgentDeltas
      = (initWaiter "th" 5).aggregatedAgentDeltas
    ∧ (wstep (initWaiter "th" 5)
        (.notif (.errorNotif (some "th") (some "t1") true (some "boom")))).usage
      = (initWaiter "th" 5).usage :=
  error_notification_settlement (initWaiter "th" 5) (some "t1") "boom"
    (by decide) (by decide) (by decide)

/-! ## Turn queue (queueTurn, lines 130-138)

queueTurn chains each task onto the previous turn with
this.turnQueue.then(task, task), so the task runs once the previous turn has
settled, on either outcome, and the queue promise absorbs the outcome with
result.then of two constant continuations, so a rejection never breaks the
chain.  On the single-threaded event loop the resulting execution trace of n
submissions is therefore the strict alternation below: turn i starts only
after turn i-1 settled, and every turn starts no matter how its predecessors
ended.  The i-th submitted turn is identified by its index; its outcome
(fulfilled or rejected) is the i-th entry of the outcome list. -/

/-- Trace events of the turn queue: turn i becomes active (its turn/start is
issued) or turn i settles with outcome ok. -/
inductive QEv where
  | start (i : Nat)
  | settle (i : Nat) (ok : Bool)
deriving DecidableEq, Repr

/-- Execution trace of the chained queue beginning at submission index j. -/
def queueRunFrom : Nat → List Bool → List QEv
  | _, [] => []
  | j, ok :: rest => .start j :: .settle j ok :: queueRunFrom (j + 1) rest

/-- Execution trace of queueTurn for one list of turn outcomes. -/
def queueRun (outs : List Bool) : List QEv :=
  queueRunFrom 0 outs

def isStart : QEv → Bool
  | .start _ => true
  | _ => false

def isSettle : QEv → Bool
  | .settle _ _ => true
  | _ => false

/-- Number of turns started in a trace. -/
def startCount (l : List QEv) : Nat :=
  (l.filter isStart).length

/-- Number of turns settled in a trace. -/
def settleCount (l : List QEv) : Nat :=
  (l.filter isSettle).length

lemma queueRunFrom_counts (outs : List Bool) : ∀ (j n : Nat),
    settleCount ((queueRunFrom j outs).take n) ≤ startCount ((queueRunFrom j outs).take n)
    ∧ startCount ((queueRunFrom j outs).take n)
      ≤ settleCount ((queueRunFrom j outs).take n) + 1 := by
  induction outs with
  | nil =>
    intro j n
    simp [queueRunFrom, startCount, settleCount]
  | cons ok rest ih =>
    intro j n
    match n with
    | 0 => simp [startCount, settleCount]
    | 1 => simp [queueRunFrom, startCount, settleCount, isStart, isSettle]
    | Nat.succ (Nat.succ m) =>
      have hm := ih (j + 1) m
      simp [queueRunFrom, List.take_succ_cons, startCount, settleCount,
        List.filter_cons, isStart, isSettle] at hm ⊢
      omega

lemma queueRunFrom_get (outs : List Bool) : ∀ (j k : Nat) (h : k < outs.length),
    (queueRunFrom j outs)[2 * k]? = some (.start (j + k))
    ∧ (queueRunFrom j outs)[2 * k + 1]? = some (.settle (j + k) (outs.get ⟨k, h⟩)) := by
  induction outs with
  | nil =>
    intro j k h
    exact absurd h (by simp)
  | cons ok rest ih =>
    intro j k h
    match k with
    | 0 => simp [queueRunFrom]
    | Nat.succ m =>
      have hm : m < rest.length := by
        simpa using Nat.lt_of_succ_lt_succ h
      have := ih (j + 1) m hm
      have h2 : 2 * (m + 1) = 2 * m + 1 + 1 := by omega
      have h3 : j + 1 + m = j + (m + 1) := by omega
      rw [h2]
      simp only [queueRunFrom, List.getElem?_cons_succ]
      rw [h3] at this
      exact this

/-- C1: the chained turn queue serializes turns.  In every prefix of the
execution trace the number of settled turns never exceeds the number of
started turns and at most one started turn is unsettled, so at most one turn
is ever active against the process; turn i occupies trace positions 2i and
2i+1, so turns start and settle in strict submission order, each starting
only after its predecessor settled; and every submitted turn starts no
matter how the previous turns ended, so the failure of a prior turn does not
block the queue. -/
theorem queue_turn_serialization (outs : List Bool) :
    (∀ n : Nat,
      settleCount ((queueRun outs).take n) ≤ startCount ((queueRun outs).take n)
      ∧ startCount ((queueRun outs).take n) ≤ settleCount ((queueRun outs).take n) + 1)
    ∧ (∀ (i : Nat) (h : i < outs.length),
      (queueRun outs)[2 * i]? = some (.start i)
      ∧ (queueRun outs)[2 * i + 1]? = some (.settle i (outs.get ⟨i, h⟩)))
    ∧ (∀ i : Nat, i < outs.length → QEv.start i ∈ queueRun outs) := by
  refine ⟨fun n => queueRunFrom_counts outs 0 n, fun i h => ?_, fun i h => ?_⟩
  · have := queueRunFrom_get outs 0 i h
    simpa using this
  · have hg := (queueRunFrom_get outs 0 i h).1
    simp only [Nat.zero_add] at hg
    exact List.get?_mem (by rw [List.get?_eq_getElem?]; exact hg)

/-- Witness for C1 on the concrete outcome list where the first turn fails
and the second succeeds: the second turn still starts, at its serialized
position. -/
theorem queue_turn_serialization_witness :
    QEv.start 1 ∈ queueRun [false, true] :=
  (queue_turn_serialization [false, true]).2.2 1 (by decide)

/-! ## ensureReady (lines 87-106)

One ensureReady call is one synchronous section of the event loop: the
readiness check at line 88, the coalescing check at line 92, and otherwise
the creation of startPromise, which synchronously enters startInternal and
spawns the process and begins the handshake sequence (initialize,
initialized, thread/start).  startCount counts handshake sequences begun.
Settlement of the attempt together with the finally block at lines 102-105
is one atomic step: it clears startPromise, and a successful attempt has
recorded the thread id from the thread/start response. -/

structure ReadyState where
  threadId : Option String
  childAlive : Bool
  startInFlight : Bool
  startCount : Nat
deriving DecidableEq, Repr

/-- One ensureReady call, lines 87-99: already ready returns at once; an
attempt in flight is awaited rather than duplicated; otherwise a new attempt
begins, spawning the process and sending one handshake sequence. -/
def ensureReadyCall (s : ReadyState) : ReadyState :=
  if s.threadId.isSome && s.childAlive then s
  else if s.startInFlight then s
  else { s with startInFlight := true, childAlive := true, startCount := s.startCount + 1 }

/-- Settlement of the in-flight attempt plus the finally block, lines
100-105: the attempt promise is cleared; on success the thread id from the
thread/start response was stored (line 172). -/
def attemptFinish (s : ReadyState) (outcome : Option String) : ReadyState :=
  match outcome with
  | some th => { s with startInFlight := false, threadId := some th }
  | none => { s with startInFlight := false }

/-- C4: ensureReady is coalescing and idempotent.  While an attempt is in
flight, any number of further calls leave the state unchanged, so exactly
one handshake sequence is sent for the whole burst; while the client is
ready, any number of calls send no handshake at all; and a burst of k+1
calls from an idle non-ready state begins exactly one handshake sequence. -/
theorem ensure_ready_coalescing (s : ReadyState) (k : Nat) :
    (s.startInFlight = true → ensureReadyCall^[k] s = s)
    ∧ (s.threadId.isSome = true → s.childAlive = true → ensureReadyCall^[k] s = s)
    ∧ (s.startInFlight = false → ¬(s.threadId.isSome = true ∧ s.childAlive = true) →
        (ensureReadyCall^[k + 1] s).startCount = s.startCount + 1) := by
  have hfix : ∀ t : ReadyState, t.startInFlight = true → ensureReadyCall t = t := by
    intro t ht
    unfold ensureReadyCall
    by_cases hr : (t.threadId.isSome && t.childAlive) = true
    · rw [if_pos hr]
    · rw [if_neg hr, if_pos ht]
  have hready : ∀ t : ReadyState, t.threadId.isSome = true → t.childAlive = true →
      ensureReadyCall t = t := by
    intro t h1 h2
    unfold ensureReadyCall
    rw [if_pos (by simp [h1, h2])]
  have hiterfix : ∀ (m : Nat) (t : ReadyState),
      ensureReadyCall t = t → ensureReadyCall^[m] t = t := by
    intro m
    induction m with
    | zero => intro t _; rfl
    | succ m ihm =>
      intro t ht
      rw [Function.iterate_succ_apply, ht]
      exact ihm t ht
  refine ⟨fun h => hiterfix k s (hfix s h), fun h1 h2 => hiterfix k s (hready s h1 h2),
    fun hnif hnr => ?_⟩
  have hstep : ensureReadyCall s
      = { s with startInFlight := true, childAlive := true, startCount := s.startCount + 1 } := by
    unfold ensureReadyCall
    rw [if_neg (by intro hc; exact hnr (by simpa using hc)), if_neg (by simp [hnif])]
  rw [Function.iterate_succ_apply, hstep,
    hiterfix k _ (hfix _ rfl)]

/-- Witness for C4 from the idle initial state and from a ready state. -/
theorem ensure_ready_coalescing_witness :
    (ensureReadyCall^[3] ⟨some "th", true, false, 7⟩ = ⟨some "th", true, false, 7⟩)
    ∧ (ensureReadyCall^[3] ⟨none, false, false, 0⟩).startCount = 0 + 1 :=
  ⟨(ensure_ready_coalescing ⟨some "th", true, false, 7⟩ 3).2.1 (by decide) (by decide),
    (ensure_ready_coalescing ⟨none, false, false, 0⟩ 2).2.2 (by decide) (by decide)⟩

/-! ## Session and the pending-request correlation table

sendRequest (lines 392-421), handleResponse (lines 298-313), stop (lines
108-128) and the exit handler (lines 227-248), embedded as a state machine.
A pending request is represented by its numeric id; registered records every
id ever placed in the table, and settleLog records every settlement of a
continuation (none for a resolution, some message for a rejection), in
order.  A timeout event is only possible while the entry is still present,
because every removal path clears the pending timer (lines 304, 112, 232,
416), and a timer that already fired removed its entry itself (line 407). -/

structure Session where
  autoRestart : Bool
  threadId : Option String
  requestCounter : Nat
  pending : List Nat
  isStopping : Bool
  childAlive : Bool
  registered : List Nat
  settleLog : List (Nat × Option String)
  restartScheduled : Bool
deriving DecidableEq, Repr

/-- Events against the session: a sendRequest call (with the fate of its
synchronous write), an inbound response line, the firing of a pending
request timer, a stop call, process exit, and process spawn. -/
inductive SessEv where
  | sendReq (method : String) (writeOk : Bool)
  | response (id : Nat) (isErr : Bool) (resTurnId : Option String)
  | reqTimeout (id : Nat)
  | stopCall
  | procExit
  | spawnEv
deriving DecidableEq, Repr

/-- Number of settlements recorded for one id. -/
def settlesIn (log : List (Nat × Option String)) (id : Nat) : Nat :=
  (log.filter (fun q => q.1 == id)).length

/-- One event against the session.

sendReq: lines 392-421; a call with no live process throws before an id is
allocated; otherwise a fresh id is allocated and registered, and a failed
write removes the entry at once and rejects (lines 413-419).
response: lines 298-313; an unmatched id is silently dropped; a matched id
is removed and its continuation settled once.
reqTimeout: lines 406-409; removes the entry and rejects.
stopCall: lines 108-128; sets the stopping flag, rejects every pending
continuation, clears the table, kills the process, discards the thread id.
procExit: lines 227-248; discards the thread id, rejects every pending
continuation with the process-exited error, clears the table, and schedules
a delayed restart exactly when no stop is in progress and auto-restart is
enabled. -/
def sessStep (s : Session) (e : SessEv) : Session :=
  match e with
  | .sendReq _ writeOk =>
    if s.childAlive then
      if writeOk then
        { s with
          requestCounter := s.requestCounter + 1
          pending := s.pending ++ [s.requestCounter]
          registered := s.registered ++ [s.requestCounter] }
      else
        { s with
          requestCounter := s.requestCounter + 1
          registered := s.registered ++ [s.requestCounter]
          settleLog := s.settleLog
            ++ [(s.requestCounter, some "Codex app-server stdin is not writable.")] }
    else s
  | .response id isErr _ =>
    if id ∈ s.pending then
      { s with
        pending := s.pending.filter (fun x => !(x == id))
        settleLog := s.settleLog ++ [(id, if isErr then some "JSON-RPC error" else none)] }
    else s
  | .reqTimeout id =>
    if id ∈ s.pending then
      { s with
        pending := s.pending.filter (fun x => !(x == id))
        settleLog := s.settleLog ++ [(id, some "Codex request timed out.")] }
    else s
  | .stopCall =>
    { s with
      isStopping := true
      pending := []
      settleLog := s.settleLog
        ++ s.pending.map (fun id => (id, some "Codex client is shutting down."))
      childAlive := false
      threadId := none }
  | .procExit =>
    { s with
      threadId := none
      pending := []
      settleLog := s.settleLog
        ++ s.pending.map (fun id => (id, some "Codex app-server exited."))
      childAlive := false
      restartScheduled := !s.isStopping && s.autoRestart }
  | .spawnEv => { s with childAlive := true }

/-- Session state at construction, lines 69-85: request counter 1, empty
table, no thread id, no process yet. -/
def initSession (autoRestart : Bool) : Session :=
  { autoRestart := autoRestart
    threadId := none
    requestCounter := 1
    pending := []
    isStopping := false
    childAlive := false
    registered := []
    settleLog := []
    restartScheduled := false }

/-- Run a session from construction through a list of events. -/
def sessRun (autoRestart : Bool) (t : List SessEv) : Session :=
  t.foldl sessStep (initSession autoRestart)

lemma settlesIn_append (log L : List (Nat × Option String)) (id : Nat) :
    settlesIn (log ++ L) id = settlesIn log id + settlesIn L id := by
  simp [settlesIn, List.filter_append]

lemma settlesIn_single (id j : Nat) (m : Option String) :
    settlesIn [(j, m)] id = if j = id then 1 else 0 := by
  by_cases h : j = id
  · simp [settlesIn, h]
  · simp [settlesIn, h]

lemma settlesIn_map (l : List Nat) (m : Option String) (id : Nat) :
    settlesIn (l.map (fun x => (x, m))) id = (l.filter (fun x => x == id)).length := by
  induction l with
  | nil => rfl
  | cons x l ih =>
    by_cases h : x = id
    · simp [settlesIn, List.filter_cons, h] at ih ⊢
      omega
    · simp [settlesIn, List.filter_cons, h] at ih ⊢
      exact ih

lemma filter_beq_nodup (l : List Nat) (id : Nat) (h : l.Nodup) :
    (l.filter (fun x => x == id)).length = if id ∈ l then 1 else 0 := by
  induction l with
  | nil => simp
  | cons x l ih =>
    have hx := (List.nodup_cons.1 h).1
    have hl := (List.nodup_cons.1 h).2
    by_cases hxi : x = id
    · subst hxi
      rw [List.filter_cons]
      simp only [beq_self_eq_true, if_true, List.length_cons, cond_true]
      rw [ih hl]
      simp [hx]
    · rw [List.filter_cons, if_neg (by simp [hxi]), ih hl]
      by_cases hmem : id ∈ l
      · rw [if_pos hmem, if_pos (List.mem_cons.2 (Or.inr hmem))]
      · rw [if_neg hmem, if_neg]
        intro hc
        rcases List.mem_cons.1 hc with hc | hc
        · exact hxi hc.symm
        · exact hmem hc

lemma settlesIn_zero_of_not_reg (s : Session)
    (hlog : ∀ q ∈ s.settleLog, q.1 ∈ s.registered) (id : Nat)
    (hid : id ∉ s.registered) : settlesIn s.settleLog id = 0 := by
  unfold settlesIn
  rw [List.length_eq_zero, List.filter_eq_nil_iff]
  intro q hq
  simp only [beq_iff_eq]
  intro hc
  exact hid (hc ▸ hlog q hq)

/-- Invariant of the correlation table: registered ids are below the
counter, the table has no duplicate ids and only registered ids, the
settlement log only mentions registered ids, and every registered id is
either still pending with no settlement or removed with exactly one
settlement. -/
def SInv (s : Session) : Prop :=
  (∀ id ∈ s.registered, id < s.requestCounter)
  ∧ s.pending.Nodup
  ∧ (∀ id ∈ s.pending, id ∈ s.registered)
  ∧ (∀ q ∈ s.settleLog, q.1 ∈ s.registered)
  ∧ (∀ id ∈ s.registered,
      (id ∈ s.pending ∧ settlesIn s.settleLog id = 0)
      ∨ (id ∉ s.pending ∧ settlesIn s.settleLog id = 1))

lemma initSession_sinv (a : Bool) : SInv (initSession a) := by
  refine ⟨?_, ?_, ?_, ?_, ?_⟩ <;> simp [initSession]

lemma sessStep_sinv (s : Session) (e : SessEv) (h : SInv s) : SInv (sessStep s e) := by
  obtain ⟨hfresh, hnodup, hpend, hlog, hstate⟩ := h
  cases e with
  | sendReq method writeOk =>
    by_cases hc : s.childAlive = true
    case neg =>
      simp only [sessStep]
      rw [if_neg hc]
      exact ⟨hfresh, hnodup, hpend, hlog, hstate⟩
    case pos =>
      simp only [sessStep]
      rw [if_pos hc]
      have hcreg : s.requestCounter ∉ s.registered := by
        intro hm
        exact absurd (hfresh _ hm) (by omega)
      have hcpend : s.requestCounter ∉ s.pending := fun hm => hcreg (hpend _ hm)
      have hczero : settlesIn s.settleLog s.requestCounter = 0 :=
        settlesIn_zero_of_not_reg s hlog _ hcreg
      cases writeOk with
      | true =>
        rw [if_pos rfl]
        refine ⟨?_, ?_, ?_, ?_, ?_⟩
        · intro id hid
          rcases List.mem_append.1 hid with hid | hid
          · exact Nat.lt_succ_of_lt (hfresh id hid)
          · simp only [List.mem_singleton] at hid
            subst hid
            exact Nat.lt_succ_self _
        · rw [List.nodup_append]
          refine ⟨hnodup, List.nodup_singleton _, ?_⟩
          intro x hx hx2
          simp only [List.mem_singleton] at hx2
          subst hx2
          exact hcpend hx
        · intro id hid
          rcases List.mem_append.1 hid with hid | hid
          · exact List.mem_append.2 (Or.inl (hpend id hid))
          · exact List.mem_append.2 (Or.inr hid)
        · intro q hq
          exact List.mem_append.2 (Or.inl (hlog q hq))
        · intro id hid
          rcases List.mem_append.1 hid with hid | hid
          · rcases hstate id hid with ⟨h1, h2⟩ | ⟨h1, h2⟩
            · exact Or.inl ⟨List.mem_append.2 (Or.inl h1), h2⟩
            · refine Or.inr ⟨?_, h2⟩
              intro hc2
              rcases List.mem_append.1 hc2 with hc2 | hc2
              · exact h1 hc2
              · simp only [List.mem_singleton] at hc2
                subst hc2
                exact absurd (hfresh _ hid) (by omega)
          · simp only [List.mem_singleton] at hid
            subst hid
            exact Or.inl ⟨List.mem_append.2 (Or.inr (by simp)), hczero⟩
      | false =>
        rw [if_neg (by simp)]
        refine ⟨?_, hnodup, ?_, ?_, ?_⟩
        · intro id hid
          rcases List.mem_append.1 hid with hid | hid
          · exact Nat.lt_succ_of_lt (hfresh id hid)
          · simp only [List.mem_singleton] at hid
            subst hid
            exact Nat.lt_succ_self _
        · intro id hid
          exact List.mem_append.2 (Or.inl (hpend id hid))
        · intro q hq
          rcases List.mem_append.1 hq with hq | hq
          · exact List.mem_append.2 (Or.inl (hlog q hq))
          · simp only [List.mem_singleton] at hq
            subst hq
            exact List.mem_append.2 (Or.inr (by simp))
        · intro id hid
          rcases List.mem_append.1 hid with hid | hid
          · have hne : s.requestCounter ≠ id := by
              intro hc2
              exact hcreg (hc2 ▸ hid)
            rcases hstate id hid with ⟨h1, h2⟩ | ⟨h1, h2⟩
            · refine Or.inl ⟨h1, ?_⟩
              rw [settlesIn_append, h2, settlesIn_single, if_neg hne]
            · refine Or.inr ⟨h1, ?_⟩
              rw [settlesIn_append, h2, settlesIn_single, if_neg hne]
          · simp only [List.mem_singleton] at hid
            subst hid
            refine Or.inr ⟨hcpend, ?_⟩
            rw [settlesIn_append, hczero, settlesIn_single, if_pos rfl]
  | response id isErr rtid =>
    by_cases hmem : id ∈ s.pending
    case neg =>
      simp only [sessStep]
      rw [if_neg hmem]
      exact ⟨hfresh, hnodup, hpend, hlog, hstate⟩
    case pos =>
      simp only [sessStep]
      rw [if_pos hmem]
      refine ⟨hfresh, hnodup.filter _, ?_, ?_, ?_⟩
      · intro x hx
        exact hpend x (List.mem_of_mem_filter hx)
      · intro q hq
        rcases List.mem_append.1 hq with hq | hq
        · exact hlog q hq
        · simp only [List.mem_singleton] at hq
          subst hq
          exact hpend id hmem
      · intro x hx
        by_cases hxid : x = id
        · subst hxid
          have hleft : x ∈ s.pending ∧ settlesIn s.settleLog x = 0 := by
            rcases hstate x hx with h1 | h1
            · exact h1
            · exact absurd hmem h1.1
          refine Or.inr ⟨?_, ?_⟩
          · intro hcf
            have := (List.mem_filter.1 hcf).2
            simp at this
          · rw [settlesIn_append, hleft.2, settlesIn_single, if_pos rfl]
        · have hne : id ≠ x := fun hc2 => hxid hc2.symm
          rcases hstate x hx with ⟨h1, h2⟩ | ⟨h1, h2⟩
          · refine Or.inl ⟨?_, ?_⟩
            · exact List.mem_filter.2 ⟨h1, by simp [hxid]⟩
            · rw [settlesIn_append, h2, settlesIn_single, if_neg hne]
          · refine Or.inr ⟨fun hcf => h1 (List.mem_of_mem_filter hcf), ?_⟩
            rw [settlesIn_append, h2, settlesIn_single, if_neg hne]
  | reqTimeout id =>
    by_cases hmem : id ∈ s.pending
    case neg =>
      simp only [sessStep]
      rw [if_neg hmem]
      exact ⟨hfresh, hnodup, hpend, hlog, hstate⟩
    case pos =>
      simp only [sessStep]
      rw [if_pos hmem]
      refine ⟨hfresh, hnodup.filter _, ?_, ?_, ?_⟩
      · intro x hx
        exact hpend x (List.mem_of_mem_filter hx)
      · intro q hq
        rcases List.mem_append.1 hq with hq | hq
        · exact hlog q hq
        · simp only [List.mem_singleton] at hq
          subst hq
          exact hpend id hmem
      · intro x hx
        by_cases hxid : x = id
        · subst hxid
          have hleft : x ∈ s.pending ∧ settlesIn s.settleLog x = 0 := by
            rcases hstate x hx with h1 | h1
            · exact h1
            · exact absurd hmem h1.1
          refine Or.inr ⟨?_, ?_⟩
          · intro hcf
            have := (List.mem_filter.1 hcf).2
            simp at this
          · rw [settlesIn_append, hleft.2, settlesIn_single, if_pos rfl]
        · have hne : id ≠ x := fun hc2 => hxid hc2.symm
          rcases hstate x hx with ⟨h1, h2⟩ | ⟨h1, h2⟩
          · refine Or.inl ⟨?_, ?_⟩
            · exact List.mem_filter.2 ⟨h1, by simp [hxid]⟩
            · rw [settlesIn_append, h2, settlesIn_single, if_neg hne]
          · refine Or.inr ⟨fun hcf => h1 (List.mem_of_mem_filter hcf), ?_⟩
            rw [settlesIn_append, h2, settlesIn_single, if_neg hne]
  | stopCall =>
    simp only [sessStep]
    refine ⟨hfresh, List.nodup_nil, by simp, ?_, ?_⟩
    · intro q hq
      rcases List.mem_append.1 hq with hq | hq
      · exact hlog q hq
      · rcases List.mem_map.1 hq with ⟨x, hx, rfl⟩
        exact hpend x hx
    · intro x hx
      refine Or.inr ⟨by simp, ?_⟩
      rw [settlesIn_append, settlesIn_map, filter_beq_nodup _ _ hnodup]
      rcases hstate x hx with ⟨h1, h2⟩ | ⟨h1, h2⟩
      · rw [h2, if_pos h1]
      · rw [h2, if_neg h1]
  | procExit =>
    simp only [sessStep]
    refine ⟨hfresh, List.nodup_nil, by simp, ?_, ?_⟩
    · intro q hq
      rcases List.mem_append.1 hq with hq | hq
      · exact hlog q hq
      · rcases List.mem_map.1 hq with ⟨x, hx, rfl⟩
        exact hpend x hx
    · intro x hx
      refine Or.inr ⟨by simp, ?_⟩
      rw [settlesIn_append, settlesIn_map, filter_beq_nodup _ _ hnodup]
      rcases hstate x hx with ⟨h1, h2⟩ | ⟨h1, h2⟩
      · rw [h2, if_pos h1]
      · rw [h2, if_neg h1]
  | spawnEv => exact ⟨hfresh, hnodup, hpend, hlog, hstate⟩

lemma sessRun_sinv (a : Bool) (t : List SessEv) : SInv (sessRun a t) := by
  induction t using List.reverseRecOn with
  | nil => exact initSession_sinv a
  | append_singleton t e ih =>
    unfold sessRun at ih ⊢
    rw [List.foldl_append]
    exact sessStep_sinv _ e ih

/-- C2: over every event trace, no pending-request continuation is ever
settled twice; every id ever registered is either still in the table with no
settlement or out of the table with exactly one settlement (never leaked,
never removed without settling); and a teardown event (process exit or stop)
settles every id that was registered, so each id ends settled exactly once
whether its removal came from a matching response, its timeout, a failed
write, stop, or process exit. -/
theorem pending_request_single_settlement (a : Bool) (t : List SessEv) :
    (∀ id : Nat, settlesIn (sessRun a t).settleLog id ≤ 1)
    ∧ (∀ id ∈ (sessRun a t).registered,
        (id ∈ (sessRun a t).pending ∧ settlesIn (sessRun a t).settleLog id = 0)
        ∨ (id ∉ (sessRun a t).pending ∧ settlesIn (sessRun a t).settleLog id = 1))
    ∧ (∀ id ∈ (sessRun a t).registered,
        settlesIn (sessStep (sessRun a t) SessEv.procExit).settleLog id = 1
        ∧ settlesIn (sessStep (sessRun a t) SessEv.stopCall).settleLog id = 1) := by
  obtain ⟨hfresh, hnodup, hpend, hlog, hstate⟩ := sessRun_sinv a t
  refine ⟨?_, hstate, ?_⟩
  · intro id
    by_cases hid : id ∈ (sessRun a t).registered
    · rcases hstate id hid with ⟨_, h2⟩ | ⟨_, h2⟩ <;> omega
    · rw [settlesIn_zero_of_not_reg _ hlog id hid]
      omega
  · intro id hid
    constructor
    · simp only [sessStep]
      rw [settlesIn_append, settlesIn_map, filter_beq_nodup _ _ hnodup]
      rcases hstate id hid with ⟨h1, h2⟩ | ⟨h1, h2⟩
      · rw [h2, if_pos h1]
      · rw [h2, if_neg h1]
    · simp only [sessStep]
      rw [settlesIn_append, settlesIn_map, filter_beq_nodup _ _ hnodup]
      rcases hstate id hid with ⟨h1, h2⟩ | ⟨h1, h2⟩
      · rw [h2, if_pos h1]
      · rw [h2, if_neg h1]

/-- Witness for C2 on a concrete trace: spawn, two requests, a response for
the first, then process exit; the id of the still-outstanding second request
is settled exactly once by the exit. -/
theorem pending_request_single_settlement_witness :
    settlesIn
        (sessStep
          (sessRun true
            [SessEv.spawnEv, SessEv.sendReq "initialize" true,
              SessEv.response 1 false none, SessEv.sendReq "thread/start" true])
          SessEv.procExit).settleLog 2 = 1 :=
  ((pending_request_single_settlement true
      [SessEv.spawnEv, SessEv.sendReq "initialize" true,
        SessEv.response 1 false none, SessEv.sendReq "thread/start" true]).2.2
    2 (by decide)).1

lemma sessStep_isStopping (s : Session) (e : SessEv) :
    (sessStep s e).isStopping = (s.isStopping || (e == SessEv.stopCall)) := by
  cases e with
  | sendReq m ok =>
    simp only [sessStep]
    by_cases hc : s.childAlive = true
    · rw [if_pos hc]
      cases ok <;> simp
    · rw [if_neg hc]
      simp
  | response id isErr rtid =>
    simp only [sessStep]
    by_cases hmem : id ∈ s.pending
    · rw [if_pos hmem]
      simp
    · rw [if_neg hmem]
      simp
  | reqTimeout id =>
    simp only [sessStep]
    by_cases hmem : id ∈ s.pending
    · rw [if_pos hmem]
      simp
    · rw [if_neg hmem]
      simp
  | stopCall => simp [sessStep]
  | procExit => simp [sessStep]
  | spawnEv => simp [sessStep]

lemma sessRun_isStopping (a : Bool) (t : List SessEv) :
    (sessRun a t).isStopping = true ↔ SessEv.stopCall ∈ t := by
  induction t using List.reverseRecOn with
  | nil => simp [sessRun, initSession]
  | append_singleton t e ih =>
    unfold sessRun at ih ⊢
    rw [List.foldl_append]
    simp only [List.foldl_cons, List.foldl_nil]
    rw [sessStep_isStopping]
    simp only [Bool.or_eq_true, beq_iff_eq, List.mem_append, List.mem_singleton]
    rw [ih]
    constructor
    · rintro (h | h)
      · exact Or.inl h
      · exact Or.inr h.symm
    · rintro (h | h)
      · exact Or.inl h
      · exact Or.inr h.symm

lemma sessStep_autoRestart (s : Session) (e : SessEv) :
    (sessStep s e).autoRestart = s.autoRestart := by
  cases e with
  | sendReq m ok =>
    simp only [sessStep]
    by_cases hc : s.childAlive = true
    · rw [if_pos hc]
      cases ok <;> simp
    · rw [if_neg hc]
  | response id isErr rtid =>
    simp only [sessStep]
    by_cases hmem : id ∈ s.pending
    · rw [if_pos hmem]
    · rw [if_neg hmem]
  | reqTimeout id =>
    simp only [sessStep]
    by_cases hmem : id ∈ s.pending
    · rw [if_pos hmem]
    · rw [if_neg hmem]
  | stopCall => rfl
  | procExit => rfl
  | spawnEv => rfl

lemma sessRun_autoRestart (a : Bool) (t : List SessEv) :
    (sessRun a t).autoRestart = a := by
  induction t using List.reverseRecOn with
  | nil => rfl
  | append_singleton t e ih =>
    unfold sessRun at ih ⊢
    rw [List.foldl_append]
    simp only [List.foldl_cons, List.foldl_nil]
    rw [sessStep_autoRestart, ih]

/-- C8: on process exit, after any event history, the session discards its
thread id, rejects every currently pending request with the process-exited
error, clears the correlation table, and schedules a delayed ensureReady
attempt exactly when no stop call has happened and auto-restart is
enabled. -/
theorem process_exit_crash_handling (a : Bool) (t : List SessEv) :
    (sessStep (sessRun a t) SessEv.procExit).threadId = none
    ∧ (sessStep (sessRun a t) SessEv.procExit).pending = []
    ∧ (sessStep (sessRun a t) SessEv.procExit).settleLog
      = (sessRun a t).settleLog
        ++ (sessRun a t).pending.map (fun id => (id, some "Codex app-server exited."))
    ∧ ((sessStep (sessRun a t) SessEv.procExit).restartScheduled = true
        ↔ (SessEv.stopCall ∉ t ∧ a = true)) := by
  refine ⟨rfl, rfl, rfl, ?_⟩
  show (!(sessRun a t).isStopping && (sessRun a t).autoRestart) = true ↔ _
  rw [sessRun_autoRestart]
  simp only [Bool.and_eq_true, Bool.not_eq_true']
  constructor
  · rintro ⟨h1, h2⟩
    refine ⟨?_, h2⟩
    intro hmem
    rw [(sessRun_isStopping a t).2 hmem] at h1
    cases h1
  · rintro ⟨h1, h2⟩
    refine ⟨?_, h2⟩
    cases hb : (sessRun a t).isStopping
    · rfl
    · exact absurd ((sessRun_isStopping a t).1 hb) h1

/-- Witness for C8 on a concrete trace that ends in a stop call, followed by
the exit it provokes: the orderly teardown settles the outstanding request,
and no restart is scheduled for the exit. -/
theorem process_exit_crash_handling_witness :
    ((sessStep (sessRun true [SessEv.spawnEv, SessEv.sendReq "initialize" true,
          SessEv.stopCall]) SessEv.procExit).restartScheduled = true
      ↔ (SessEv.stopCall ∉ [SessEv.spawnEv, SessEv.sendReq "initialize" true,
          SessEv.stopCall] ∧ true = true)) :=
  (process_exit_crash_handling true
    [SessEv.spawnEv, SessEv.sendReq "initialize" true, SessEv.stopCall]).2.2.2

/-! ## One queued turn against the session (runTurn, lines 423-461)

runTurn creates the waiter (subscribing it to notifications), sends the
turn/start request, and awaits first the turn/start response and then the
waiter promise, disposing the waiter in a finally block.  The phase tracks
where the awaiting continuation stands: awaitingStart while the turn/start
pending request is outstanding, awaitingWaiter afterwards, finished once the
turn future has settled.  Notifications and the deadline timer reach the
waiter in every phase, since the listener is registered at creation; the
exit, stop, response and timeout events reach the session, and settle the
turn future during awaitingStart exactly when they settle the turn/start
pending request, because the exit handler (lines 227-248) rejects pending
requests only and never notifies the waiter. -/

inductive TurnPhase where
  | awaitingStart (rid : Nat)
  | awaitingWaiter
  | finished (r : Except String TurnResult)
deriving DecidableEq, Repr

structure TurnSys where
  sess : Session
  waiter : Waiter
  phase : TurnPhase
deriving DecidableEq, Repr

inductive TSysEv where
  | sessEv (e : SessEv)
  | notifEv (n : Notif)
  | turnTimer
deriving DecidableEq, Repr

/-- Resume the runTurn continuation when the waiter promise has settled,
lines 457-460. -/
def promoteWaiter (t : TurnSys) : TurnSys :=
  match t.phase, t.waiter.result with
  | .awaitingWaiter, some r => { t with phase := .finished r }
  | _, _ => t

/-- One event against the in-flight turn.  On the turn/start response (lines
450-457) the continuation binds the waiter to the returned turn id when that
id is truthy and then awaits the waiter; a rejection of the turn/start
pending request (error response, request timeout, stop, process exit)
propagates out of runTurn, whose finally block disposes the waiter. -/
def tsysStep (t : TurnSys) (e : TSysEv) : TurnSys :=
  match e with
  | .sessEv se =>
    let s2 := sessStep t.sess se
    match t.phase, se with
    | .awaitingStart rid, .response id isErr resTid =>
      if id = rid ∧ rid ∈ t.sess.pending then
        if isErr then
          { sess := s2, waiter := wstep t.waiter .dispose,
            phase := .finished (.error "JSON-RPC error") }
        else
          promoteWaiter
            { sess := s2
              waiter :=
                if jsTruthy resTid then wstep t.waiter (.setTurnId (resTid.getD ""))
                else t.waiter
              phase := .awaitingWaiter }
      else { t with sess := s2 }
    | .awaitingStart rid, .reqTimeout id =>
      if id = rid ∧ rid ∈ t.sess.pending then
        { sess := s2, waiter := wstep t.waiter .dispose,
          phase := .finished (.error "Codex request timed out.") }
      else { t with sess := s2 }
    | .awaitingStart rid, .stopCall =>
      if rid ∈ t.sess.pending then
        { sess := s2, waiter := wstep t.waiter .dispose,
          phase := .finished (.error "Codex client is shutting down.") }
      else { t with sess := s2 }
    | .awaitingStart rid, .procExit =>
      if rid ∈ t.sess.pending then
        { sess := s2, waiter := wstep t.waiter .dispose,
          phase := .finished (.error "Codex app-server exited.") }
      else { t with sess := s2 }
    | _, _ => { t with sess := s2 }
  | .notifEv n => promoteWaiter { t with waiter := wstep t.waiter (.notif n) }
  | .turnTimer => promoteWaiter { t with waiter := wstep t.waiter .timerFire }

/-- State right after runTurn on a ready session has created its waiter and
sent the turn/start request with id 1. -/
def turnSysStart (th : String) (tmo : Nat) (autoRestart : Bool) : TurnSys :=
  let s0 : Session :=
    { initSession autoRestart with childAlive := true, threadId := some th }
  { sess := sessStep s0 (.sendReq "turn/start" true)
    waiter := initWaiter th tmo
    phase := .awaitingStart s0.requestCounter }

def tsysRun (th : String) (tmo : Nat) (autoRestart : Bool) (evs : List TSysEv) : TurnSys :=
  evs.foldl tsysStep (turnSysStart th tmo autoRestart)

/-- C7 (amended): if the process exits while the turn/start request is still
outstanding, the queued turn rejects with the process-exit error; but if the
exit happens after the turn/start response, the exit itself does not settle
the turn: the waiter is untouched (the exit handler only rejects pending
requests) and the turn stays in flight until a later notification or its own
deadline timer settles it. -/
theorem process_exit_turn_rejection (t : TurnSys) :
    (∀ rid : Nat, t.phase = .awaitingStart rid → rid ∈ t.sess.pending →
      (tsysStep t (.sessEv .procExit)).phase
        = .finished (.error "Codex app-server exited."))
    ∧ (t.phase = .awaitingWaiter →
      (tsysStep t (.sessEv .procExit)).waiter = t.waiter
      ∧ (tsysStep t (.sessEv .procExit)).phase = .awaitingWaiter) := by
  constructor
  · intro rid hph hmem
    simp only [tsysStep, hph]
    rw [if_pos hmem]
  · intro hph
    constructor <;> simp [tsysStep, hph]

/-- C7 counterexample for the claim as frozen: the turn/start response
arrives (the turn is in flight, already sent and not yet settled), then the
process exits.  The exit does not reject the turn: it is still awaiting the
waiter with no delivered result, and it is settled only when its deadline
timer fires, with the timeout error, not a process-exit error. -/
theorem process_exit_turn_rejection_counterexample :
    (tsysRun "th" 300000 true
        [.sessEv (.response 1 false (some "t1")), .sessEv .procExit]).phase
      = TurnPhase.awaitingWaiter
    ∧ (tsysRun "th" 300000 true
        [.sessEv (.response 1 false (some "t1")), .sessEv .procExit]).waiter.result = none
    ∧ (tsysRun "th" 300000 true
        [.sessEv (.response 1 false (some "t1")), .sessEv .procExit,
          .turnTimer]).phase
      = TurnPhase.finished (.error "Turn timed out after 300000ms.")
    ∧ TurnPhase.finished (Except.error "Turn timed out after 300000ms.")
      ≠ TurnPhase.finished (.error "Codex app-server exited.") := by
  exact ⟨by decide, by decide, by decide, by decide⟩

/-- Witness for C7 on the concrete freshly started turn: exit before the
turn/start response rejects the turn with the process-exit error. -/
theorem process_exit_turn_rejection_witness :
    (tsysStep (turnSysStart "th" 300000 true) (.sessEv .procExit)).phase
      = TurnPhase.finished (.error "Codex app-server exited.") :=
  (process_exit_turn_rejection (turnSysStart "th" 300000 true)).1 1
    (by decide) (by decide)

/-! ## Server-initiated request responder

defaultToolAnswer (lines 23-29), makeServerRequestUnsupportedError (lines
31-36), buildServerRequestResult (lines 339-369) and handleServerRequest
(lines 326-337).  Only the requestUserInput method inspects params, reading
params.questions (defaulted to the empty list); the answers object keyed by
question id is modelled as the association list in question order. -/

structure ToolOption where
  label : String
deriving DecidableEq, Repr

/-- One question of a requestUserInput request: its id, its options field
(none when absent or not an array), and its open-ended marker. -/
structure ToolQuestion where
  id : String
  options : Option (List ToolOption)
  isOther : Bool
deriving DecidableEq, Repr

/-- defaultToolAnswer, lines 23-29: the first enumerated option when at
least one is offered, otherwise other for an open-ended question and yes
for the rest. -/
def defaultToolAnswer (q : ToolQuestion) : List String :=
  match q.options with
  | some (o :: _) => [o.label]
  | _ => [if q.isOther then "other" else "yes"]

structure JsonRpcError where
  code : Int
  message : String
deriving DecidableEq, Repr

/-- makeServerRequestUnsupportedError, lines 31-36. -/
def makeServerRequestUnsupportedError (method : String) : JsonRpcError :=
  { code := -32000, message := "Unsupported server request method: " ++ method }

inductive ServerRequestResult where
  | decision (d : String)
  | answers (m : List (String × List String))
  | toolCallFailure (success : Bool) (text : String)
deriving DecidableEq, Repr

/-- buildServerRequestResult, lines 339-369: the switch over the method
name; an unknown method throws. -/
def buildServerRequestResult (method : String) (questions : Option (List ToolQuestion)) :
    Except String ServerRequestResult :=
  if method = "item/commandExecution/requestApproval" then .ok (.decision "accept")
  else if method = "item/fileChange/requestApproval" then .ok (.decision "accept")
  else if method = "execCommandApproval" then .ok (.decision "approved")
  else if method = "applyPatchApproval" then .ok (.decision "approved")
  else if method = "item/tool/requestUserInput" then
    .ok (.answers ((questions.getD []).map (fun q => (q.id, defaultToolAnswer q))))
  else if method = "item/tool/call" then
    .ok (.toolCallFailure false "Dynamic tool calls are not supported by this gateway.")
  else .error ("Unsupported server request: " ++ method)

inductive ServerReply where
  | result (r : ServerRequestResult)
  | rpcError (e : JsonRpcError)
deriving DecidableEq, Repr

/-- handleServerRequest, lines 326-337: a successful build is written back
as the result; a thrown error is answered with the fixed unsupported-method
JSON-RPC error for the offending method. -/
def handleServerRequest (method : String) (questions : Option (List ToolQuestion)) :
    ServerReply :=
  match buildServerRequestResult method questions with
  | .ok r => .result r
  | .error _ => .rpcError (makeServerRequestUnsupportedError method)

/-- Inbound line shapes after the classification of handleLine, lines
266-287. -/
inductive LineMsg where
  | serverRequest (id : Nat) (method : String) (questions : Option (List ToolQuestion))
  | rpcResponse (id : Nat) (isErr : Bool)
  | notification (n : Notif)
  | unparseable
  | ignored
deriving DecidableEq, Repr

/-- Whether handling one inbound line resets the session: only a line that
fails to parse as JSON does (lines 258-264); a server-initiated request is
answered in place and never tears the session down. -/
def handleLineResets : LineMsg → Bool
  | .unparseable => true
  | _ => false

/-- C10: the auto-responder answers both command-execution approval methods
and both file-change approval methods with accept or approved, answers each
question of a requestUserInput request with its first enumerated option when
options are offered and otherwise with yes, or other for an open-ended
question, answers a dynamic tool call with an explicit failure content item,
and answers every other method with the fixed unsupported-method JSON-RPC
error code -32000 naming the offending method, without resetting the
session. -/
theorem server_request_responder (qs : List ToolQuestion) (q : ToolQuestion)
    (method : String) :
    (method ∉ ["item/commandExecution/requestApproval", "item/fileChange/requestApproval",
        "execCommandApproval", "applyPatchApproval", "item/tool/requestUserInput",
        "item/tool/call"] →
      handleServerRequest method (some qs)
        = .rpcError ⟨-32000, "Unsupported server request method: " ++ method⟩)
    ∧ handleServerRequest "item/commandExecution/requestApproval" (some qs)
      = .result (.decision "accept")
    ∧ handleServerRequest "item/fileChange/requestApproval" (some qs)
      = .result (.decision "accept")
    ∧ handleServerRequest "execCommandApproval" (some qs) = .result (.decision "approved")
    ∧ handleServerRequest "applyPatchApproval" (some qs) = .result (.decision "approved")
    ∧ handleServerRequest "item/tool/requestUserInput" (some qs)
      = .result (.answers (qs.map (fun q2 => (q2.id, defaultToolAnswer q2))))
    ∧ (∀ o os, q.options = some (o :: os) → defaultToolAnswer q = [o.label])
    ∧ (q.options = none →
        defaultToolAnswer q = [if q.isOther then "other" else "yes"])
    ∧ (q.options = some [] →
        defaultToolAnswer q = [if q.isOther then "other" else "yes"])
    ∧ handleServerRequest "item/tool/call" (some qs)
      = .result (.toolCallFailure false "Dynamic tool calls are not supported by this gateway.")
    ∧ (∀ (i : Nat) (m : String) (qo : Option (List ToolQuestion)),
        handleLineResets (.serverRequest i m qo) = false) := by
  refine ⟨?_, rfl, rfl, rfl, rfl, rfl, ?_, ?_, ?_, rfl, fun i m qo => rfl⟩
  · intro hm
    have h1 : method ≠ "item/commandExecution/requestApproval" := by
      intro hc; exact hm (by simp [hc])
    have h2 : method ≠ "item/fileChange/requestApproval" := by
      intro hc; exact hm (by simp [hc])
    have h3 : method ≠ "execCommandApproval" := by
      intro hc; exact hm (by simp [hc])
    have h4 : method ≠ "applyPatchApproval" := by
      intro hc; exact hm (by simp [hc])
    have h5 : method ≠ "item/tool/requestUserInput" := by
      intro hc; exact hm (by simp [hc])
    have h6 : method ≠ "item/tool/call" := by
      intro hc; exact hm (by simp [hc])
    simp [handleServerRequest, buildServerRequestResult, h1, h2, h3, h4, h5, h6,
      makeServerRequestUnsupportedError]
  · intro o os ho
    simp [defaultToolAnswer, ho]
  · intro ho
    simp [defaultToolAnswer, ho]
  · intro ho
    simp [defaultToolAnswer, ho]

/-- Witness for C10 at concrete inputs: an unknown method gets the fixed
error, and a concrete question list gets its first options and defaults. -/
theorem server_request_responder_witness :
    handleServerRequest "session/fork" (some []) =
      .rpcError ⟨-32000, "Unsupported server request method: session/fork"⟩ :=
  (server_request_responder [] ⟨"q", none, false⟩ "session/fork").1 (by decide)

end Codex2CC

example :
    (Codex2CC.runWaiter "th" 300000
      [.setTurnId "t1",
        .notif (.agentMessageDelta (some "th") (some "t1") (some "Hi")),
        .notif (.itemCompleted (some "th") (some "t1") (some "agentMessage") (some "Hi there")),
        .notif (.tokenUsageUpdated (some "th") (some "t1") (some 3) (some 2)),
        .notif (.turnCompleted (some "th") (some "t1") (some "completed") none)]).result
    = some (.ok ⟨"Hi there", some ⟨3, 2⟩⟩) := by
  decide
